import Mathlib

/-!
Verification model of the multi-chain Discord NFT verification bot.

The development shallowly embeds the JavaScript sources:
verifiers/arbitrum-verifier.js (the Arbitrum, Monad and Berachain verifier
classes, including the transaction scanner checkVerificationTransaction and
verifyNFTOwnershipWithStaking), the shared utilities (ethToWei,
isValidEthereumAddress), monad-bot.js (handleModalSubmit,
handleSelectMenuInteraction, handleButtonInteraction),
database/verification-db.js (saveVerification and the lookup helpers) and
middleware/rateLimiter.js (checkUserLimit).

Modeling conventions:

JavaScript strings are modeled as lists of character codes (JsStr).
Decimal renderings of integers (Number.prototype.toString on integral
doubles below 10^21) are modeled by natToJsStr, which is proved injective,
so string comparison of rendered integers coincides with the JS behavior.

JavaScript numbers are IEEE binary64 doubles. An integer-valued double is
modeled by the exact natural number it denotes; the rounding that parseInt
and arithmetic apply to magnitudes at or above 2^53 is modeled by fl53
(round to 53 significant bits, nearest, ties to even). A general positive
double is modeled by its exact dyadic value, a pair (significand, exponent)
with value significand * 2^exponent; jsDouble computes the double nearest
to a fraction, and this model is used for the ethToWei conversion.

Network interaction (axios calls) is modeled by oracles passed as
arguments: the chain is a function from block number to transaction list,
and the error-raising variant uses Except to model thrown exceptions.
-/

namespace MonadBot

/-- JavaScript strings, modeled as lists of character codes. -/
abbrev JsStr := List Nat

/-- ASCII lowercasing of a single character code; models what
String.prototype.toLowerCase does on the ASCII strings (hex addresses)
this program compares. -/
def asciiLower (c : Nat) : Nat := if 65 ≤ c ∧ c ≤ 90 then c + 32 else c

/-- Model of s.toLowerCase() for the ASCII strings compared by the code. -/
def jsToLower (s : JsStr) : JsStr := s.map asciiLower

/-- Little-endian decimal digits of n, with explicit fuel; fuel at least n
suffices, and the definition is structurally recursive so that it reduces
inside the kernel. -/
def digitsRevF : Nat → Nat → List Nat
  | 0, _ => []
  | fuel + 1, n => if n = 0 then [] else n % 10 :: digitsRevF fuel (n / 10)

/-- Decimal rendering of a natural number as a JS string (character codes),
modeling Number.prototype.toString for integral doubles below 10^21, where
JavaScript prints the exact decimal digits. -/
def natToJsStr (n : Nat) : JsStr :=
  if n = 0 then [48] else ((digitsRevF n n).map (fun d => 48 + d)).reverse

/-- Value of a little-endian digit list, used to invert digitsRevF. -/
def valLE (l : List Nat) : Nat := l.foldr (fun d acc => d + 10 * acc) 0

theorem valLE_nil : valLE [] = 0 := rfl

theorem valLE_cons (d : Nat) (l : List Nat) : valLE (d :: l) = d + 10 * valLE l := rfl

theorem valLE_digitsRevF : ∀ fuel n : Nat, n ≤ fuel → valLE (digitsRevF fuel n) = n := by
  intro fuel
  induction fuel with
  | zero =>
    intro n hn
    simp only [digitsRevF, valLE_nil]
    omega
  | succ f ih =>
    intro n hn
    by_cases h0 : n = 0
    · subst h0
      simp [digitsRevF, valLE_nil]
    · simp only [digitsRevF, if_neg h0, valLE_cons]
      rw [ih (n / 10) (by omega)]
      omega

theorem natToJsStr_inj : ∀ {a b : Nat}, natToJsStr a = natToJsStr b → a = b := by
  intro a b h
  have addInj : Function.Injective (fun d : Nat => 48 + d) := by
    intro x y hxy
    simpa using hxy
  by_cases ha : a = 0 <;> by_cases hb : b = 0
  · omega
  · exfalso
    simp only [natToJsStr, if_pos ha, if_neg hb] at h
    have h2 : (digitsRevF b b).map (fun d => 48 + d) = [48] := by
      have := congrArg List.reverse h
      simpa using this.symm
    have h3 : digitsRevF b b = [0] := by
      cases hd : digitsRevF b b with
      | nil => rw [hd] at h2; simp at h2
      | cons d t =>
        rw [hd] at h2
        simp only [List.map_cons, List.cons.injEq] at h2
        have hd0 : d = 0 := by omega
        have ht : t = [] := by
          have := h2.2
          cases t with
          | nil => rfl
          | cons x xs => simp at this
        rw [hd0, ht]
    have hv := valLE_digitsRevF b b (Nat.le_refl b)
    rw [h3] at hv
    simp [valLE_cons, valLE_nil] at hv
    exact hb hv.symm
  · exfalso
    simp only [natToJsStr, if_neg ha, if_pos hb] at h
    have h2 : (digitsRevF a a).map (fun d => 48 + d) = [48] := by
      have := congrArg List.reverse h
      simpa using this
    have h3 : digitsRevF a a = [0] := by
      cases hd : digitsRevF a a with
      | nil => rw [hd] at h2; simp at h2
      | cons d t =>
        rw [hd] at h2
        simp only [List.map_cons, List.cons.injEq] at h2
        have hd0 : d = 0 := by omega
        have ht : t = [] := by
          have := h2.2
          cases t with
          | nil => rfl
          | cons x xs => simp at this
        rw [hd0, ht]
    have hv := valLE_digitsRevF a a (Nat.le_refl a)
    rw [h3] at hv
    simp [valLE_cons, valLE_nil] at hv
    exact ha hv.symm
  · simp only [natToJsStr, if_neg ha, if_neg hb] at h
    have h2 := List.reverse_injective h
    have h3 : digitsRevF a a = digitsRevF b b := by
      exact List.map_injective_iff.mpr addInj h2
    have hva := valLE_digitsRevF a a (Nat.le_refl a)
    have hvb := valLE_digitsRevF b b (Nat.le_refl b)
    rw [h3] at hva
    omega

/-- Number of halvings needed to bring n below 2^53 (fueled; fuel at least
n suffices). -/
def shiftDown53 : Nat → Nat → Nat
  | 0, _ => 0
  | fuel + 1, n => if n < 2 ^ 53 then 0 else shiftDown53 fuel (n / 2) + 1

/-- Round N / D to the nearest integer, ties to even (for D positive). -/
def roundFrac (N D : Nat) : Nat :=
  let q := N / D
  let r := N % D
  if 2 * r < D then q
  else if D < 2 * r then q + 1
  else if q % 2 = 0 then q else q + 1

/-- Binary64 rounding of a natural number: the exact value of the IEEE
double nearest to n (round to nearest, ties to even). This models the
value loss JavaScript parseInt and arithmetic incur on integers at or
above 2^53. -/
def fl53 (n : Nat) : Nat :=
  if n < 2 ^ 53 then n
  else
    let k := shiftDown53 n n
    roundFrac n (2 ^ k) * 2 ^ k

theorem fl53_eq_self {n : Nat} (h : n < 2 ^ 53) : fl53 n = n := by
  unfold fl53
  exact if_pos h

/-- Comparison num / den < 2^e with an integer exponent, by cross
multiplication. -/
def lt2pow (num den : Nat) (e : Int) : Bool :=
  if 0 ≤ e then num < den * 2 ^ e.toNat else num * 2 ^ (-e).toNat < den

/-- Fueled search for the binary exponent e with 2^e ≤ num/den < 2^(e+1). -/
def findExp : Nat → Nat → Nat → Int → Int
  | 0, _, _, e => e
  | fuel + 1, num, den, e =>
    if lt2pow num den (e + 1) then
      if lt2pow num den e then findExp fuel num den (e - 1) else e
    else findExp fuel num den (e + 1)

/-- The IEEE binary64 double nearest to num/den, as an exact dyadic pair
(significand, exponent) with value significand * 2^exponent (normal range
only, which covers every quantity this program handles). -/
def jsDouble (num den : Nat) : Nat × Int :=
  let e := findExp 1200 num den 0
  let sig :=
    if 0 ≤ 52 - e then roundFrac (num * 2 ^ (52 - e).toNat) den
    else roundFrac num (den * 2 ^ (e - 52).toNat)
  (sig, e - 52)

/-- Floor of the nonnegative dyadic value s * 2^e, modeling Math.floor on a
nonnegative double given by its exact value. -/
def dyFloor (s : Nat) (e : Int) : Nat :=
  if 0 ≤ e then s * 2 ^ e.toNat else s / 2 ^ (-e).toNat

/-- Model of ethToWei from the shared verification utilities:
Math.floor(ethAmount * 1e18).toString(). The double argument is given by
its exact dyadic value (sig, exp). Since 10^18 is exactly representable
in binary64, the JS multiplication yields the binary64 rounding of
sig * 10^18 * 2^exp, whose significand is fl53 (sig * 10^18); Math.floor
and toString are then exact on the resulting integer. -/
def ethToWei (sig : Nat) (exp : Int) : JsStr :=
  natToJsStr (dyFloor (fl53 (sig * 10 ^ 18)) exp)

/-- Model of isValidEthereumAddress from the shared verification
utilities: the regex 0x followed by exactly 40 hex characters. -/
def isHexCode (c : Nat) : Bool :=
  (48 ≤ c && c ≤ 57) || (97 ≤ c && c ≤ 102) || (65 ≤ c && c ≤ 70)

def isValidEthereumAddress (s : JsStr) : Bool :=
  s.length = 42 && s.take 2 = [48, 120] && (s.drop 2).all isHexCode

/-- One transaction as returned by eth_getBlockByNumber with full
transaction objects. txValue holds the exact Wei amount encoded by the
hex string tx.value; none models a null or absent value, which the code
renders as the string 0. -/
structure Tx where
  txTo : Option JsStr
  txFrom : Option JsStr
  txValue : Option Nat
deriving DecidableEq

/-- The decimal string the scanner computes for a transaction value:
tx.value is fed through parseInt(tx.value, 16).toString(). parseInt
returns the binary64 double nearest to the encoded integer, so magnitudes
at or above 2^53 are rounded by fl53 before rendering. -/
def txValueString (v : Option Nat) : JsStr :=
  match v with
  | none => natToJsStr 0
  | some n => natToJsStr (fl53 n)

/-- Whether one transaction passes the scanner filter in
checkVerificationTransaction: tx.to and tx.from present (non-null,
nonempty), case-insensitively equal to the target addresses, and the
rendered value string strictly equal to the exact amount string. -/
def matchTx (fromAddress toAddress exactAmount : JsStr) (tx : Tx) : Bool :=
  match tx.txTo, tx.txFrom with
  | some t, some f =>
    !t.isEmpty && !f.isEmpty &&
      (jsToLower t == jsToLower toAddress) &&
      (jsToLower f == jsToLower fromAddress) &&
      (txValueString tx.txValue == exactAmount)
  | _, _ => false

/-- Whether any transaction of a block matches the scanner filter. A
missing block or missing transaction list is modeled as the empty list,
matching the continue in the source loop. -/
def blockHasMatch (fromAddress toAddress exactAmount : JsStr) (txs : List Tx) : Bool :=
  txs.any (matchTx fromAddress toAddress exactAmount)

/-- The backward block loop of checkVerificationTransaction: checks fuel
consecutive blocks starting at cur and walking down. -/
def scanDown (chain : Nat → List Tx) (fromAddress toAddress exactAmount : JsStr) :
    Nat → Nat → Bool
  | 0, _ => false
  | fuel + 1, cur =>
    if blockHasMatch fromAddress toAddress exactAmount (chain cur) then true
    else scanDown chain fromAddress toAddress exactAmount fuel (cur - 1)

/-- Model of MonadNFTVerifier.checkVerificationTransaction for a scan whose
RPC calls all succeed: latest is the chain head height, chain gives each
block transaction list. The source computes
startBlock = max(0, latest - 1000) and iterates blockNum from latest down
to startBlock inclusive; truncated Nat subtraction models the clamp. -/
def checkVerificationTransaction (chain : Nat → List Tx) (latest : Nat)
    (fromAddress toAddress exactAmount : JsStr) : Bool :=
  let startBlock := latest - 1000
  scanDown chain fromAddress toAddress exactAmount (latest - startBlock + 1) latest

theorem scanDown_eq_true_iff (chain : Nat → List Tx) (f t a : JsStr) :
    ∀ fuel cur, scanDown chain f t a fuel cur = true ↔
      ∃ i, i < fuel ∧ blockHasMatch f t a (chain (cur - i)) = true := by
  intro fuel
  induction fuel with
  | zero =>
    intro cur
    simp [scanDown]
  | succ n ih =>
    intro cur
    by_cases h : blockHasMatch f t a (chain cur) = true
    · constructor
      · intro _
        exact ⟨0, Nat.succ_pos n, by simpa using h⟩
      · intro _
        simp [scanDown, h]
    · have hfalse : blockHasMatch f t a (chain cur) = false := by
        cases hx : blockHasMatch f t a (chain cur)
        · rfl
        · exact absurd hx h
      have hstep : scanDown chain f t a (n + 1) cur = scanDown chain f t a n (cur - 1) := by
        simp [scanDown, hfalse]
      rw [hstep, ih (cur - 1)]
      constructor
      · rintro ⟨i, hi, hb⟩
        refine ⟨i + 1, by omega, ?_⟩
        have he : cur - (i + 1) = cur - 1 - i := by omega
        rw [he]
        exact hb
      · rintro ⟨i, hi, hb⟩
        cases i with
        | zero =>
          exfalso
          rw [Nat.sub_zero] at hb
          rw [hb] at hfalse
          exact absurd hfalse (by simp)
        | succ j =>
          refine ⟨j, by omega, ?_⟩
          have he : cur - 1 - j = cur - (j + 1) := by omega
          rw [he]
          exact hb

theorem checkVerificationTransaction_eq_true_iff (chain : Nat → List Tx)
    (latest : Nat) (f t a : JsStr) :
    checkVerificationTransaction chain latest f t a = true ↔
      ∃ b, latest - 1000 ≤ b ∧ b ≤ latest ∧ blockHasMatch f t a (chain b) = true := by
  unfold checkVerificationTransaction
  rw [scanDown_eq_true_iff]
  constructor
  · rintro ⟨i, hi, hb⟩
    exact ⟨latest - i, by omega, by omega, hb⟩
  · rintro ⟨b, hb1, hb2, hb⟩
    refine ⟨latest - b, by omega, ?_⟩
    have h : latest - (latest - b) = b := by omega
    rw [h]
    exact hb

/-- RPC oracle for the scanner including failures: blockNumber models the
eth_blockNumber call and getBlock the eth_getBlockByNumber call; an error
value models a thrown axios or RPC exception, and ok none models a null
block or missing transaction list (skipped by the loop). -/
structure Rpc where
  blockNumber : Except String Nat
  getBlock : Nat → Except String (Option (List Tx))

/-- The backward block loop of checkVerificationTransaction over the
failure-aware oracle: a thrown error aborts the scan. -/
def scanDownE (rpc : Rpc) (fromAddress toAddress exactAmount : JsStr) :
    Nat → Nat → Except String Bool
  | 0, _ => .ok false
  | fuel + 1, cur =>
    match rpc.getBlock cur with
    | .error e => .error e
    | .ok none => scanDownE rpc fromAddress toAddress exactAmount fuel (cur - 1)
    | .ok (some txs) =>
      if blockHasMatch fromAddress toAddress exactAmount txs then .ok true
      else scanDownE rpc fromAddress toAddress exactAmount fuel (cur - 1)

/-- The body of checkVerificationTransaction before the try/catch: fetch
the head height, then scan the trailing window; any step may throw. -/
def checkVerificationTransactionE (rpc : Rpc) (fromAddress toAddress exactAmount : JsStr) :
    Except String Bool :=
  match rpc.blockNumber with
  | .error e => .error e
  | .ok latest =>
    scanDownE rpc fromAddress toAddress exactAmount (latest - (latest - 1000) + 1) latest

/-- Model of the full checkVerificationTransaction including its try/catch:
the source catches every thrown error, logs it, and returns false. -/
def checkVerificationTransactionCaught (rpc : Rpc) (fromAddress toAddress exactAmount : JsStr) :
    Bool :=
  match checkVerificationTransactionE rpc fromAddress toAddress exactAmount with
  | .ok b => b
  | .error _ => false

/-- An oracle whose calls all succeed, every block present. -/
def pureRpc (chain : Nat → List Tx) (latest : Nat) : Rpc :=
  { blockNumber := .ok latest, getBlock := fun b => .ok (some (chain b)) }

theorem scanDownE_pure (chain : Nat → List Tx) (latest : Nat) (f t a : JsStr) :
    ∀ fuel cur, scanDownE (pureRpc chain latest) f t a fuel cur =
      .ok (scanDown chain f t a fuel cur) := by
  intro fuel
  induction fuel with
  | zero => intro cur; rfl
  | succ n ih =>
    intro cur
    have hgb : (pureRpc chain latest).getBlock cur = .ok (some (chain cur)) := rfl
    by_cases h : blockHasMatch f t a (chain cur) = true
    · simp [scanDownE, scanDown, hgb, h]
    · simp only [scanDownE, scanDown, hgb, h, if_false, Bool.false_eq_true]
      exact ih (cur - 1)

/-- Coherence of the two scanner embeddings: when no RPC call fails, the
caught scanner computes exactly the pure scan. -/
theorem checkVerificationTransactionCaught_pure (chain : Nat → List Tx) (latest : Nat)
    (f t a : JsStr) :
    checkVerificationTransactionCaught (pureRpc chain latest) f t a =
      checkVerificationTransaction chain latest f t a := by
  have h1 : checkVerificationTransactionE (pureRpc chain latest) f t a =
      scanDownE (pureRpc chain latest) f t a (latest - (latest - 1000) + 1) latest := rfl
  unfold checkVerificationTransactionCaught
  rw [h1, scanDownE_pure chain latest f t a (latest - (latest - 1000) + 1) latest]
  rfl

/-- Claim C7: whenever any step of the scan raises an error (fetching the
head block, fetching a block, or any step in between),
checkVerificationTransaction does not propagate the error: the try/catch
converts it into the return value false, indistinguishable from a
genuinely absent transaction. -/
theorem scan_error_returns_false (rpc : Rpc) (fromAddress toAddress exactAmount : JsStr)
    (e : String)
    (h : checkVerificationTransactionE rpc fromAddress toAddress exactAmount = .error e) :
    checkVerificationTransactionCaught rpc fromAddress toAddress exactAmount = false := by
  unfold checkVerificationTransactionCaught
  rw [h]

/-- Witness for C7: a concrete oracle whose head-height call throws; the
scan body propagates the error and the caught scanner returns false. -/
theorem scan_error_returns_false_witness :
    checkVerificationTransactionE ⟨.error "rpc down", fun _ => .ok none⟩ [] [] [] =
      .error "rpc down"
    ∧ checkVerificationTransactionCaught ⟨.error "rpc down", fun _ => .ok none⟩ [] [] [] =
      false :=
  ⟨rfl, scan_error_returns_false ⟨.error "rpc down", fun _ => .ok none⟩ [] [] [] "rpc down" rfl⟩

/-- Claim C2: the scanner walks the trailing window from the head back
through exactly head - 1000 (clamped at block 0): a scan finds a match
exactly when some block between head - 1000 and head contains one; in
particular a matching transfer at block head - 1000 confirms, and if no
block of the window matches (for instance when the only matching transfer
sits at block head - 1001) the scan returns false. -/
theorem scan_window_boundary (chain : Nat → List Tx) (latest : Nat) (f t a : JsStr)
    (h : 1001 ≤ latest) :
    (checkVerificationTransaction chain latest f t a = true ↔
      ∃ b, latest - 1000 ≤ b ∧ b ≤ latest ∧ blockHasMatch f t a (chain b) = true)
    ∧ (blockHasMatch f t a (chain (latest - 1000)) = true →
      checkVerificationTransaction chain latest f t a = true)
    ∧ ((∀ b, latest - 1000 ≤ b → b ≤ latest → blockHasMatch f t a (chain b) = false) →
      checkVerificationTransaction chain latest f t a = false) := by
  refine ⟨checkVerificationTransaction_eq_true_iff chain latest f t a, ?_, ?_⟩
  · intro hb
    exact (checkVerificationTransaction_eq_true_iff chain latest f t a).mpr
      ⟨latest - 1000, Nat.le_refl _, by omega, hb⟩
  · intro hall
    cases hc : checkVerificationTransaction chain latest f t a with
    | false => rfl
    | true =>
      exfalso
      obtain ⟨b, hb1, hb2, hb⟩ :=
        (checkVerificationTransaction_eq_true_iff chain latest f t a).mp hc
      rw [hall b hb1 hb2] at hb
      exact absurd hb (by simp)

/-- Chain with one matching transfer at block 1 = 1001 - 1000, the far edge
of the window. -/
def c2ChainFound : Nat → List Tx :=
  fun b => if b = 1 then [{ txTo := some [98], txFrom := some [97], txValue := some 5 }] else []

/-- Chain with one matching transfer only at block 0 = 1001 - 1001, one
block beyond the window. -/
def c2ChainMissed : Nat → List Tx :=
  fun b => if b = 0 then [{ txTo := some [98], txFrom := some [97], txValue := some 5 }] else []

/-- Witness for C2: at head height 1001, a match at block 1 (= head - 1000)
is found and a match only at block 0 (= head - 1001) is not. -/
theorem scan_window_boundary_witness :
    checkVerificationTransaction c2ChainFound 1001 [97] [98] (natToJsStr 5) = true
    ∧ checkVerificationTransaction c2ChainMissed 1001 [97] [98] (natToJsStr 5) = false := by
  constructor
  · exact (scan_window_boundary c2ChainFound 1001 [97] [98] (natToJsStr 5) (by decide)).2.1
      (by decide)
  · refine (scan_window_boundary c2ChainMissed 1001 [97] [98] (natToJsStr 5) (by decide)).2.2 ?_
    intro b h1 h2
    have hb : ¬ b = 0 := by omega
    simp [c2ChainMissed, hb, blockHasMatch]

/-- Chain whose only transaction transfers one base unit more than the
challenge amount 2^53, at a magnitude where parseInt rounds. -/
def c1Chain : Nat → List Tx :=
  fun _ => [{ txTo := some [48, 120, 98], txFrom := some [48, 120, 97],
              txValue := some (2 ^ 53 + 1) }]

/-- Counterexample to claim C1 as stated: the window contains one
transaction whose Wei value 2^53 + 1 differs from the challenge amount
2^53 by exactly one base unit and no transaction with the exact value,
yet the scan returns true, because parseInt rounds 2^53 + 1 to the double
2^53 and the rendered strings collide. The comparison is therefore not
exact for values of every magnitude. -/
theorem scan_value_comparison_counterexample :
    checkVerificationTransaction c1Chain 0 [48, 120, 97] [48, 120, 98]
      (natToJsStr (2 ^ 53)) = true
    ∧ (c1Chain 0).map Tx.txValue = [some (2 ^ 53 + 1)]
    ∧ 2 ^ 53 + 1 ≠ 2 ^ 53 := by decide

/-- Claim C1 (amended): the scanner compares the decimal rendering of the
binary64-rounded transaction value against the challenge string, so the
comparison is exact only below 2^53: if the challenge base-unit amount n
and every transaction value in the chain lie below 2^53 and no transaction
value equals n exactly (in particular when the window holds a transfer
off by exactly one base unit), the scan returns false. -/
theorem scan_value_comparison_amended (chain : Nat → List Tx) (latest : Nat)
    (fromA toA : JsStr) (n : Nat) (hn : n < 2 ^ 53) (hpos : 0 < n)
    (hvals : ∀ b tx, tx ∈ chain b → ∀ v, tx.txValue = some v → v < 2 ^ 53 ∧ v ≠ n)
    (_hnear : ∃ b tx, tx ∈ chain b ∧
      (tx.txValue = some (n + 1) ∨ tx.txValue = some (n - 1))) :
    checkVerificationTransaction chain latest fromA toA (natToJsStr n) = false := by
  cases hc : checkVerificationTransaction chain latest fromA toA (natToJsStr n) with
  | false => rfl
  | true =>
    exfalso
    obtain ⟨b, hb1, hb2, hb⟩ :=
      (checkVerificationTransaction_eq_true_iff chain latest fromA toA (natToJsStr n)).mp hc
    unfold blockHasMatch at hb
    obtain ⟨tx, htx, hm⟩ := List.any_eq_true.mp hb
    obtain ⟨tto, tfrom, tval⟩ := tx
    cases tto with
    | none => simp [matchTx] at hm
    | some t =>
      cases tfrom with
      | none => simp [matchTx] at hm
      | some f =>
        simp only [matchTx, Bool.and_eq_true, beq_iff_eq] at hm
        have hveq : txValueString tval = natToJsStr n := hm.2
        cases tval with
        | none =>
          have h0 : (0 : Nat) = n := natToJsStr_inj hveq
          omega
        | some v =>
          obtain ⟨hv53, hvne⟩ := hvals b ⟨some t, some f, some v⟩ htx v rfl
          have : natToJsStr v = natToJsStr n := by
            rw [← fl53_eq_self hv53]
            exact hveq
          exact hvne (natToJsStr_inj this)

/-- Chain for the C1 witness: a single transfer of 6 base units against a
challenge of 5, both far below 2^53. -/
def c1WitnessChain : Nat → List Tx :=
  fun _ => [{ txTo := some [98], txFrom := some [97], txValue := some 6 }]

/-- Witness for the amended C1: at the precision-safe magnitude 5, a
transfer off by one base unit does not confirm. -/
theorem scan_value_comparison_amended_witness :
    (5 : Nat) < 2 ^ 53 ∧ (0 : Nat) < 5
    ∧ checkVerificationTransaction c1WitnessChain 2000 [97] [98] (natToJsStr 5) = false := by
  refine ⟨by decide, by decide, ?_⟩
  apply scan_value_comparison_amended c1WitnessChain 2000 [97] [98] 5 (by decide) (by decide)
  · intro b tx htx v hv
    simp only [c1WitnessChain, List.mem_singleton] at htx
    subst htx
    have hv6 : v = 6 := by simpa using hv.symm
    subst hv6
    exact ⟨by decide, by decide⟩
  · exact ⟨0, { txTo := some [98], txFrom := some [97], txValue := some 6 },
      by simp [c1WitnessChain], Or.inl rfl⟩

/-- Fields of the enhanced Monad verification result that the staking
claims observe. verificationMethod holds the literal tag string the
source attaches. -/
structure EnhancedResult where
  verified : Bool
  verificationMethod : String
  stakedNFTCount : Option Nat
  minRequired : Nat
deriving DecidableEq

/-- Contribution of one staking contract to totalStakedCount in
verifyNFTOwnershipWithStaking: checkStakedNFTsDirectly reports
hasStakedNFTs = (stakedCount > 0) on success (some k) and
hasStakedNFTs = false on its error path (none), and the caller adds
stakedCount only when hasStakedNFTs holds. -/
def stakedContribution (q : Option Nat) : Nat :=
  match q with
  | none => 0
  | some k => if 0 < k then k else 0

/-- Sum of staked counts across all configured staking contracts, as
accumulated by the loop in verifyNFTOwnershipWithStaking. -/
def totalStakedCount (contracts : List JsStr) (stakeQuery : JsStr → Option Nat) : Nat :=
  (contracts.map fun c => stakedContribution (stakeQuery c)).sum

/-- Model of MonadNFTVerifier.verifyNFTOwnershipWithStaking restricted to
the fields the claims observe. standardVerified is the verified flag of
the direct ownership check run first; stakeQuery gives the per-contract
staked count of the wallet (none when the contract check threw). -/
def verifyNFTOwnershipWithStaking (standardVerified : Bool) (contracts : List JsStr)
    (stakeQuery : JsStr → Option Nat) (minNftCount : Nat) : EnhancedResult :=
  if standardVerified then
    { verified := true, verificationMethod := "direct_ownership",
      stakedNFTCount := none, minRequired := minNftCount }
  else if 0 < contracts.length then
    let total := totalStakedCount contracts stakeQuery
    if 0 < total then
      if minNftCount ≤ total then
        { verified := true, verificationMethod := "staking_direct_query_multi",
          stakedNFTCount := some total, minRequired := minNftCount }
      else
        { verified := false, verificationMethod := "staking_insufficient_multi",
          stakedNFTCount := some total, minRequired := minNftCount }
    else
      { verified := false, verificationMethod := "failed_both",
        stakedNFTCount := none, minRequired := minNftCount }
  else
    { verified := false, verificationMethod := "failed_both",
      stakedNFTCount := none, minRequired := minNftCount }

/-- Counterexample to claim C3 as stated: with direct ownership failed, one
staking contract configured, a summed staked count of zero and a minimum
of one, the claim demands the insufficient-staked tag carrying the count
zero, but the source skips the staking branch entirely when the total is
zero and tags the result failed_both with no staked count attached. -/
theorem staking_method_tag_counterexample :
    (verifyNFTOwnershipWithStaking false [[99]] (fun _ => some 0) 1).verificationMethod =
      "failed_both"
    ∧ "failed_both" ≠ "staking_insufficient_multi"
    ∧ (verifyNFTOwnershipWithStaking false [[99]] (fun _ => some 0) 1).stakedNFTCount = none
    ∧ totalStakedCount [[99]] (fun _ => some 0) = 0 := by
  refine ⟨rfl, by decide, rfl, rfl⟩

/-- Claim C3 (amended): when direct ownership verification fails and at
least one staking contract is configured, the staked (verified) tag
staking_direct_query_multi is produced exactly when the summed staked
count is positive and meets the minimum; a positive total below the
minimum produces the staking_insufficient_multi tag carrying the actual
summed count; a zero total falls through to the failed_both tag instead
of the insufficient tag. -/
theorem staking_method_tag_amended (contracts : List JsStr)
    (stakeQuery : JsStr → Option Nat) (minNftCount : Nat)
    (hc : contracts ≠ []) :
    ((verifyNFTOwnershipWithStaking false contracts stakeQuery minNftCount).verificationMethod =
        "staking_direct_query_multi" ↔
      (0 < totalStakedCount contracts stakeQuery ∧
        minNftCount ≤ totalStakedCount contracts stakeQuery))
    ∧ (0 < totalStakedCount contracts stakeQuery →
        ¬ minNftCount ≤ totalStakedCount contracts stakeQuery →
        (verifyNFTOwnershipWithStaking false contracts stakeQuery
            minNftCount).verificationMethod = "staking_insufficient_multi"
        ∧ (verifyNFTOwnershipWithStaking false contracts stakeQuery
            minNftCount).stakedNFTCount = some (totalStakedCount contracts stakeQuery))
    ∧ (totalStakedCount contracts stakeQuery = 0 →
        (verifyNFTOwnershipWithStaking false contracts stakeQuery
            minNftCount).verificationMethod = "failed_both"
        ∧ (verifyNFTOwnershipWithStaking false contracts stakeQuery
            minNftCount).verified = false)
    ∧ ((verifyNFTOwnershipWithStaking false contracts stakeQuery minNftCount).verified = true ↔
      (verifyNFTOwnershipWithStaking false contracts stakeQuery minNftCount).verificationMethod =
        "staking_direct_query_multi") := by
  have hlen : 0 < contracts.length := List.length_pos.mpr hc
  by_cases h0 : 0 < totalStakedCount contracts stakeQuery
  · by_cases hmin : minNftCount ≤ totalStakedCount contracts stakeQuery
    · have hres : verifyNFTOwnershipWithStaking false contracts stakeQuery minNftCount =
          { verified := true, verificationMethod := "staking_direct_query_multi",
            stakedNFTCount := some (totalStakedCount contracts stakeQuery),
            minRequired := minNftCount } := by
        unfold verifyNFTOwnershipWithStaking
        simp [hlen, h0, hmin]
      rw [hres]
      refine ⟨by simp [h0, hmin], ?_, ?_, by simp⟩
      · intro _ hm
        exact absurd hmin hm
      · intro hz
        omega
    · have hres : verifyNFTOwnershipWithStaking false contracts stakeQuery minNftCount =
          { verified := false, verificationMethod := "staking_insufficient_multi",
            stakedNFTCount := some (totalStakedCount contracts stakeQuery),
            minRequired := minNftCount } := by
        unfold verifyNFTOwnershipWithStaking
        simp [hlen, h0, hmin]
      rw [hres]
      refine ⟨⟨?_, fun hp => absurd hp.2 hmin⟩, ?_, ?_, ?_⟩
      · intro hf
        simp at hf
      · intro _ _
        exact ⟨rfl, rfl⟩
      · intro hz
        omega
      · constructor
        · intro hf
          simp at hf
        · intro hf
          simp at hf
  · have hres : verifyNFTOwnershipWithStaking false contracts stakeQuery minNftCount =
        { verified := false, verificationMethod := "failed_both",
          stakedNFTCount := none, minRequired := minNftCount } := by
      unfold verifyNFTOwnershipWithStaking
      simp [hlen, h0]
    rw [hres]
    refine ⟨⟨?_, fun hp => absurd hp.1 h0⟩, ?_, ?_, ?_⟩
    · intro hf
      simp at hf
    · intro hp _
      exact absurd hp h0
    · intro _
      exact ⟨rfl, rfl⟩
    · constructor
      · intro hf
        simp at hf
      · intro hf
        simp at hf

/-- Witness for the amended C3: one configured contract with three staked
tokens against a minimum of two yields the staked tag, and the same
contract with one staked token yields the insufficient tag carrying the
count one. -/
theorem staking_method_tag_amended_witness :
    ((verifyNFTOwnershipWithStaking false [[99]] (fun _ => some 3) 2).verificationMethod =
        "staking_direct_query_multi" ↔
      (0 < totalStakedCount [[99]] (fun _ => some 3) ∧
        2 ≤ totalStakedCount [[99]] (fun _ => some 3)))
    ∧ ((verifyNFTOwnershipWithStaking false [[99]] (fun _ => some 1) 2).verificationMethod =
        "staking_insufficient_multi"
      ∧ (verifyNFTOwnershipWithStaking false [[99]] (fun _ => some 1) 2).stakedNFTCount =
        some (totalStakedCount [[99]] (fun _ => some 1))) :=
  ⟨(staking_method_tag_amended [[99]] (fun _ => some 3) 2 (by simp)).1,
   (staking_method_tag_amended [[99]] (fun _ => some 1) 2 (by simp)).2.1
     (by decide) (by decide)⟩

/-- One NFT as returned by the holdings API: contract address, plus the
display metadata fields the verifiers read (none models an absent or
empty field, which is falsy in the source). -/
structure OwnedNft where
  contractAddress : JsStr
  contractName : Option String
  contractSymbol : Option String
deriving DecidableEq

/-- Fields of a verifyNFTOwnership result that the claims observe. -/
structure OwnResult where
  verified : Bool
  ownedNFTs : Nat
  collectionNFTs : Option Nat
  collectionName : Option String
  collectionSymbol : Option String
deriving DecidableEq

/-- Collection name the Monad verifier attaches: set only inside the
branch taken when at least one NFT of the required collection is owned,
where it reads collectionNFTs[0].contract.name with the fallback
Unknown Collection for a missing or empty name. -/
def monadCollectionName (coll : List OwnedNft) : Option String :=
  match coll with
  | [] => none
  | nft :: _ =>
    some (match nft.contractName with
      | none => "Unknown Collection"
      | some s => if s = "" then "Unknown Collection" else s)

/-- Model of MonadNFTVerifier.verifyNFTOwnership (fields the claims
observe) for a successful holdings lookup returning ownedNfts. -/
def monadVerifyNFTOwnership (requiredCollection : Option JsStr) (minNftCount : Nat)
    (ownedNfts : List OwnedNft) : OwnResult :=
  match requiredCollection with
  | none =>
    { verified := minNftCount ≤ ownedNfts.length, ownedNFTs := ownedNfts.length,
      collectionNFTs := none, collectionName := none, collectionSymbol := none }
  | some rc =>
    let coll := ownedNfts.filter fun nft =>
      jsToLower nft.contractAddress == jsToLower rc
    { verified := minNftCount ≤ coll.length
      ownedNFTs := ownedNfts.length
      collectionNFTs := some coll.length
      collectionName := monadCollectionName coll
      collectionSymbol :=
        match coll with
        | [] => none
        | nft :: _ => some (nft.contractSymbol.getD "") }

/-- Model of ArbitrumNFTVerifier.verifyNFTOwnership: identical filtering,
but the collection name is the hardcoded string Schizo Sybils (Gen 1),
set in both the nonempty branch and, per the comment in the source, also
when no NFTs of the collection are found. -/
def arbitrumVerifyNFTOwnership (requiredCollection : Option JsStr) (minNftCount : Nat)
    (ownedNfts : List OwnedNft) : OwnResult :=
  match requiredCollection with
  | none =>
    { verified := minNftCount ≤ ownedNfts.length, ownedNFTs := ownedNfts.length,
      collectionNFTs := none, collectionName := none, collectionSymbol := none }
  | some rc =>
    let coll := ownedNfts.filter fun nft =>
      jsToLower nft.contractAddress == jsToLower rc
    { verified := minNftCount ≤ coll.length
      ownedNFTs := ownedNfts.length
      collectionNFTs := some coll.length
      collectionName := some "Schizo Sybils (Gen 1)"
      collectionSymbol :=
        match coll with
        | [] => some ""
        | nft :: _ => some (nft.contractSymbol.getD "") }

/-- Model of BeraVerifier.verifyNFTOwnership: identical to the Arbitrum
verifier with the hardcoded name Super Schizos (Gen 2). -/
def beraVerifyNFTOwnership (requiredCollection : Option JsStr) (minNftCount : Nat)
    (ownedNfts : List OwnedNft) : OwnResult :=
  match requiredCollection with
  | none =>
    { verified := minNftCount ≤ ownedNfts.length, ownedNFTs := ownedNfts.length,
      collectionNFTs := none, collectionName := none, collectionSymbol := none }
  | some rc =>
    let coll := ownedNfts.filter fun nft =>
      jsToLower nft.contractAddress == jsToLower rc
    { verified := minNftCount ≤ coll.length
      ownedNFTs := ownedNfts.length
      collectionNFTs := some coll.length
      collectionName := some "Super Schizos (Gen 2)"
      collectionSymbol :=
        match coll with
        | [] => some ""
        | nft :: _ => some (nft.contractSymbol.getD "") }

/-- Counterexample to claim C9 as stated: for a wallet owning zero NFTs of
the configured collection, the Monad (primary) verifier leaves its details
without any collection name, while the claim demands a descriptive name on
every network including Monad. The Arbitrum and Berachain verifiers do set
their names, shown for contrast. -/
theorem collection_name_counterexample :
    (monadVerifyNFTOwnership (some [99]) 1 []).collectionName = none
    ∧ (arbitrumVerifyNFTOwnership (some [99]) 1 []).collectionName =
        some "Schizo Sybils (Gen 1)"
    ∧ (beraVerifyNFTOwnership (some [99]) 1 []).collectionName =
        some "Super Schizos (Gen 2)" :=
  ⟨rfl, rfl, rfl⟩

/-- Claim C9 (amended): for every wallet owning zero NFTs of the configured
required collection, the Arbitrum and Berachain verifiers still carry
their descriptive collection names in the details, while the Monad
verifier carries none (its details name the collection only when at least
one matching NFT is owned). -/
theorem collection_name_amended (rc : JsStr) (minNftCount : Nat) (ownedNfts : List OwnedNft)
    (h : ownedNfts.filter (fun nft => jsToLower nft.contractAddress == jsToLower rc) = []) :
    (arbitrumVerifyNFTOwnership (some rc) minNftCount ownedNfts).collectionName =
      some "Schizo Sybils (Gen 1)"
    ∧ (beraVerifyNFTOwnership (some rc) minNftCount ownedNfts).collectionName =
      some "Super Schizos (Gen 2)"
    ∧ (monadVerifyNFTOwnership (some rc) minNftCount ownedNfts).collectionName = none
    ∧ (monadVerifyNFTOwnership (some rc) minNftCount ownedNfts).verified =
      decide (minNftCount ≤ 0) := by
  unfold arbitrumVerifyNFTOwnership beraVerifyNFTOwnership monadVerifyNFTOwnership
  simp only [h]
  simp [monadCollectionName]

/-- Witness for the amended C9: a wallet owning one NFT of an unrelated
contract against required collection [99]. -/
theorem collection_name_amended_witness :
    (arbitrumVerifyNFTOwnership (some [99]) 1
        [{ contractAddress := [97], contractName := none, contractSymbol := none }]).collectionName =
      some "Schizo Sybils (Gen 1)"
    ∧ (monadVerifyNFTOwnership (some [99]) 1
        [{ contractAddress := [97], contractName := none, contractSymbol := none }]).collectionName =
      none :=
  ⟨(collection_name_amended [99] 1
      [{ contractAddress := [97], contractName := none, contractSymbol := none }]
      (by decide)).1,
   (collection_name_amended [99] 1
      [{ contractAddress := [97], contractName := none, contractSymbol := none }]
      (by decide)).2.2.1⟩

/-- One userLimits map entry of the rate limiter: running count and window
reset timestamp. -/
structure RLEntry where
  count : Nat
  resetTime : Nat
deriving DecidableEq

/-- One rate limit configuration: allowed count per window length. -/
structure LimitCfg where
  count : Nat
  windowMs : Nat
deriving DecidableEq

/-- Return value of checkUserLimit; remaining is an integer as in the
source, where limit.count - userLimit.count is plain JS arithmetic. -/
structure RLOutcome where
  allowed : Bool
  remaining : Int
  resetTime : Nat
deriving DecidableEq

/-- The userLimits map, keyed by the userId:action pair. -/
abbrev RLState := String × String → Option RLEntry

def updateRL (st : RLState) (k : String × String) (e : RLEntry) : RLState :=
  fun k2 => if k2 = k then some e else st k2

/-- Model of RateLimiter.checkUserLimit with the per-action limit already
resolved (lim) and the current clock passed as now. The source creates or
resets the entry when it is absent or its window elapsed, denies without
mutating when the count is exhausted, and otherwise increments. -/
def checkUserLimit (st : RLState) (userId action : String) (lim : LimitCfg) (now : Nat) :
    RLOutcome × RLState :=
  let key := (userId, action)
  match st key with
  | none =>
    ({ allowed := true, remaining := (lim.count : Int) - 1, resetTime := now + lim.windowMs },
     updateRL st key { count := 1, resetTime := now + lim.windowMs })
  | some e =>
    if e.resetTime < now then
      ({ allowed := true, remaining := (lim.count : Int) - 1, resetTime := now + lim.windowMs },
       updateRL st key { count := 1, resetTime := now + lim.windowMs })
    else if lim.count ≤ e.count then
      ({ allowed := false, remaining := 0, resetTime := e.resetTime }, st)
    else
      ({ allowed := true, remaining := (lim.count : Int) - (e.count + 1),
         resetTime := e.resetTime },
       updateRL st key { count := e.count + 1, resetTime := e.resetTime })

/-- Claim C8: when a (user, action) counter is exhausted, the call is
denied without mutating state, and once the clock strictly exceeds the
stored reset time the next call is allowed again with the counter
restarted at 1, remaining equal to the configured count minus one, and a
fresh reset time one window length after the new call. -/
theorem rate_limit_reset (st : RLState) (userId action : String) (lim : LimitCfg)
    (now now2 : Nat) (e : RLEntry)
    (hkey : st (userId, action) = some e)
    (hwin : ¬ e.resetTime < now)
    (hexhausted : lim.count ≤ e.count)
    (hlater : e.resetTime < now2) :
    (checkUserLimit st userId action lim now).1.allowed = false
    ∧ (checkUserLimit st userId action lim now).2 = st
    ∧ (checkUserLimit st userId action lim now2).1 =
        { allowed := true, remaining := (lim.count : Int) - 1,
          resetTime := now2 + lim.windowMs }
    ∧ (checkUserLimit st userId action lim now2).2 (userId, action) =
        some { count := 1, resetTime := now2 + lim.windowMs } := by
  refine ⟨?_, ?_, ?_, ?_⟩ <;>
    simp [checkUserLimit, hkey, hwin, hexhausted, hlater, updateRL]

/-- Exhausted counter for the C8 witness: 5 calls recorded, window resets
at time 100. -/
def rlWitnessState : RLState :=
  fun k => if k = ("u1", "verify") then some { count := 5, resetTime := 100 } else none

/-- Witness for C8 with the default verify limit of 5 per 60000 ms: denied
at time 50, allowed again at time 101 with remaining 4 and reset time
60101, counter restarted at 1. -/
theorem rate_limit_reset_witness :
    (checkUserLimit rlWitnessState "u1" "verify" ⟨5, 60000⟩ 50).1.allowed = false
    ∧ (checkUserLimit rlWitnessState "u1" "verify" ⟨5, 60000⟩ 101).1 =
        { allowed := true, remaining := 4, resetTime := 60101 }
    ∧ (checkUserLimit rlWitnessState "u1" "verify" ⟨5, 60000⟩ 101).2 ("u1", "verify") =
        some { count := 1, resetTime := 60101 } := by
  have h := rate_limit_reset rlWitnessState "u1" "verify" ⟨5, 60000⟩ 50 101
    { count := 5, resetTime := 100 } (by simp [rlWitnessState]) (by decide) (by decide)
    (by decide)
  refine ⟨h.1, ?_, ?_⟩
  · rw [h.2.2.1]
    decide
  · rw [h.2.2.2]
    decide

/-- The verified flag of a persisted verification result (the only field of
the stored result object the database code reads back). -/
structure StoredResult where
  verified : Bool
deriving DecidableEq

/-- One NetworkVerification row as stored by saveVerification. -/
structure NetVer where
  walletAddress : JsStr
  verifiedAt : Nat
  verificationResult : StoredResult
  network : String
deriving DecidableEq

/-- One user record of the verification store. -/
structure UserRecord where
  userId : String
  username : String
  verifications : String → Option NetVer
  createdAt : Nat
  lastUpdated : Option Nat

/-- The verification store, keyed by user id. -/
abbrev Db := String → Option UserRecord

/-- Model of VerificationDatabase.saveVerification (the same logic backs
the JSON path of the PostgreSQL wrapper): initialize the user entry if
absent, overwrite the verification entry of the one network, then
overwrite username and lastUpdated. Timestamps are passed in as now. -/
def saveVerification (db : Db) (userId username : String) (walletAddress : JsStr)
    (result : StoredResult) (network : String) (now : Nat) : Db :=
  let base :=
    match db userId with
    | some u => u
    | none =>
      { userId := userId, username := username, verifications := fun _ => none,
        createdAt := now, lastUpdated := none }
  let entry : NetVer :=
    { walletAddress := walletAddress, verifiedAt := now,
      verificationResult := result, network := network }
  let u2 : UserRecord :=
    { base with
      username := username
      lastUpdated := some now
      verifications := fun n => if n = network then some entry else base.verifications n }
  fun uid => if uid = userId then some u2 else db uid

/-- Claim C10: for a stored user record, saveVerification for network N
replaces exactly the verification entry of N, leaves the entries of every
other network unchanged, leaves userId and createdAt unchanged, overwrites
only username and lastUpdated, and leaves every other user record of the
store untouched. -/
theorem saveVerification_frame (db : Db) (userId username : String) (wallet : JsStr)
    (result : StoredResult) (network : String) (now : Nat) (u : UserRecord)
    (hu : db userId = some u) :
    ∃ u2, saveVerification db userId username wallet result network now userId = some u2
      ∧ u2.verifications network =
          some { walletAddress := wallet, verifiedAt := now,
                 verificationResult := result, network := network }
      ∧ (∀ n, n ≠ network → u2.verifications n = u.verifications n)
      ∧ u2.createdAt = u.createdAt
      ∧ u2.userId = u.userId
      ∧ u2.username = username
      ∧ u2.lastUpdated = some now
      ∧ (∀ uid, uid ≠ userId →
          saveVerification db userId username wallet result network now uid = db uid) := by
  refine ⟨{ u with
      username := username
      lastUpdated := some now
      verifications := fun n =>
        if n = network then
          some { walletAddress := wallet, verifiedAt := now,
                 verificationResult := result, network := network }
        else u.verifications n }, ?_, ?_, ?_, ?_, ?_, ?_, ?_, ?_⟩
  · unfold saveVerification
    simp [hu]
  · simp
  · intro n hn
    simp [hn]
  · rfl
  · rfl
  · rfl
  · rfl
  · intro uid huid
    unfold saveVerification
    simp [huid]

/-- User record for the C10 and C4 witnesses: a user with one verified
Monad entry. -/
def dbWitnessRecord : UserRecord :=
  { userId := "u1", username := "alice", createdAt := 7, lastUpdated := none,
    verifications := fun n =>
      if n = "monad_testnet" then
        some { walletAddress := [48, 120, 97], verifiedAt := 9,
               verificationResult := { verified := true }, network := "monad_testnet" }
      else none }

def dbWitness : Db := fun uid => if uid = "u1" then some dbWitnessRecord else none

/-- Witness for C10: saving an Arbitrum verification for the stored user. -/
theorem saveVerification_frame_witness :
    ∃ u2, saveVerification dbWitness "u1" "alice2" [48, 120, 98] { verified := true }
        "arbitrum" 11 "u1" = some u2
      ∧ u2.verifications "arbitrum" =
          some { walletAddress := [48, 120, 98], verifiedAt := 11,
                 verificationResult := { verified := true }, network := "arbitrum" }
      ∧ (∀ n, n ≠ "arbitrum" → u2.verifications n = dbWitnessRecord.verifications n)
      ∧ u2.createdAt = dbWitnessRecord.createdAt
      ∧ u2.userId = dbWitnessRecord.userId
      ∧ u2.username = "alice2"
      ∧ u2.lastUpdated = some 11
      ∧ (∀ uid, uid ≠ "u1" →
          saveVerification dbWitness "u1" "alice2" [48, 120, 98] { verified := true }
            "arbitrum" 11 uid = dbWitness uid) :=
  saveVerification_frame dbWitness "u1" "alice2" [48, 120, 98] { verified := true }
    "arbitrum" 11 dbWitnessRecord (by simp [dbWitness])

/-- Model of VerificationDatabase.hasMonadVerification: the user exists and
the monad_testnet entry carries a result with verified true. -/
def hasMonadVerification (db : Db) (userId : String) : Bool :=
  match db userId with
  | none => false
  | some u =>
    match u.verifications "monad_testnet" with
    | none => false
    | some v => v.verificationResult.verified

/-- Model of VerificationDatabase.getVerifiedWallet: the wallet of the
monad_testnet entry; the source appends a falsy-to-null coercion, so an
empty wallet string also yields null. -/
def getVerifiedWallet (db : Db) (userId : String) : Option JsStr :=
  match db userId with
  | none => none
  | some u =>
    match u.verifications "monad_testnet" with
    | none => none
    | some v => if v.walletAddress = [] then none else some v.walletAddress

/-- Outcome of the chain select menu for a secondary chain: either the
ready embed showing the Monad-verified wallet with the verify button, or
the embed requiring Monad verification first. The secondary flow never
opens a wallet modal and never issues a challenge; those exist only in
the Monad branch, so this outcome type has no such case. -/
inductive SelectOutcome
  | secondaryReady (wallet : Option JsStr) (network : String)
  | requireMonadFirst
deriving DecidableEq

/-- Model of handleSelectMenuInteraction for select_verification_chain
with a secondary chain (arbitrum or bera) selected. -/
def handleSelectSecondary (db : Db) (userId network : String) : SelectOutcome :=
  if hasMonadVerification db userId then
    .secondaryReady (getVerifiedWallet db userId) network
  else .requireMonadFirst

/-- Outcome of the use_verified_wallet button: an error embed when no
verified wallet is stored, otherwise an ownership check run on the stored
wallet. No wallet input and no challenge occur on this path. -/
inductive ButtonOutcome
  | noVerifiedWallet
  | ownershipCheck (wallet : JsStr) (network : String)
deriving DecidableEq

/-- Model of handleButtonInteraction for use_verified_wallet_<network>:
re-fetch the Monad-verified wallet from the store and run the ownership
check on exactly that wallet. -/
def handleUseVerifiedWallet (db : Db) (userId network : String) : ButtonOutcome :=
  match getVerifiedWallet db userId with
  | none => .noVerifiedWallet
  | some w => .ownershipCheck w network

/-- Claim C4: a user with a successful primary (Monad) verification bound
to wallet W gets the secondary flow run on exactly W - the select menu
shows W and the button checks ownership of W, with no new wallet input
and no challenge (the outcome types of the secondary flow contain no
modal and no challenge issuance) - while a user without a verified
primary record receives the distinct requireMonadFirst precondition
failure from the select menu before any ownership check. -/
theorem secondary_reuses_primary_wallet :
    (∀ (db : Db) (userId network : String) (u : UserRecord) (v : NetVer),
      db userId = some u →
      u.verifications "monad_testnet" = some v →
      v.verificationResult.verified = true →
      v.walletAddress ≠ [] →
      handleSelectSecondary db userId network =
        .secondaryReady (some v.walletAddress) network
      ∧ handleUseVerifiedWallet db userId network =
        .ownershipCheck v.walletAddress network)
    ∧ (∀ (db : Db) (userId network : String),
      hasMonadVerification db userId = false →
      handleSelectSecondary db userId network = .requireMonadFirst) := by
  constructor
  · intro db userId network u v hu hv hver hw
    have hm : hasMonadVerification db userId = true := by
      simp [hasMonadVerification, hu, hv, hver]
    have hg : getVerifiedWallet db userId = some v.walletAddress := by
      simp [getVerifiedWallet, hu, hv, hw]
    constructor
    · unfold handleSelectSecondary
      simp [hm, hg]
    · unfold handleUseVerifiedWallet
      rw [hg]
  · intro db userId network hm
    unfold handleSelectSecondary
    simp [hm]

/-- Witness for C4: the stored user u1 with verified Monad wallet 0xa gets
the Arbitrum flow run on 0xa; the unknown user u2 is turned away. -/
theorem secondary_reuses_primary_wallet_witness :
    handleSelectSecondary dbWitness "u1" "arbitrum" =
      .secondaryReady (some [48, 120, 97]) "arbitrum"
    ∧ handleUseVerifiedWallet dbWitness "u1" "arbitrum" =
      .ownershipCheck [48, 120, 97] "arbitrum"
    ∧ handleSelectSecondary (fun _ => none) "u2" "bera" = .requireMonadFirst := by
  have h1 := secondary_reuses_primary_wallet.1 dbWitness "u1" "arbitrum" dbWitnessRecord
    { walletAddress := [48, 120, 97], verifiedAt := 9,
      verificationResult := { verified := true }, network := "monad_testnet" }
    (by simp [dbWitness]) (by simp [dbWitnessRecord]) rfl (by simp)
  exact ⟨h1.1, h1.2, secondary_reuses_primary_wallet.2 (fun _ => none) "u2" "bera" rfl⟩

/-- One entry of the verification_codes store in monad-bot.js, keyed by a
generated id. The challenge amount is a double, stored as its exact dyadic
value; none models an absent field. -/
structure VCode where
  userId : String
  username : String
  walletAddress : JsStr
  amount : Option (Nat × Int)
  amountWei : Option JsStr
  timestamp : Nat
  verified : Bool
deriving DecidableEq

/-- The verificationCodes object: association list in property insertion
order, which is what Object.entries iterates for these non-index keys. -/
abbrev Codes := List (String × VCode)

/-- Object.entries(verificationCodes).find of the first entry whose userId
matches. -/
def findUserCode (codes : Codes) (userId : String) : Option (String × VCode) :=
  codes.find? fun e => e.2.userId == userId

/-- Property write verificationCodes[k] = v: replace when the key exists,
append otherwise. -/
def setCode (codes : Codes) (k : String) (v : VCode) : Codes :=
  if (codes.find? fun e => e.1 == k).isSome then
    codes.map fun e => if e.1 == k then (k, v) else e
  else codes ++ [(k, v)]

/-- JS truthiness of the stored amount: absent or zero is falsy. -/
def truthyAmount (a : Option (Nat × Int)) : Bool :=
  match a with
  | none => false
  | some d => d.1 ≠ 0

/-- Outcome of handleModalSubmit for the wallet input modal. -/
inductive ModalOutcome
  | invalidWallet
  | alreadyVerified
  | challengeIssued (amount : Nat × Int)
deriving DecidableEq

/-- The record created for a fresh challenge: the source stores the
generated amount and computes amountWei = ethToWei(amount) once, here. -/
def freshChallengeCode (userId username : String) (wallet : JsStr) (fresh : Nat × Int)
    (now : Nat) : VCode :=
  { userId := userId, username := username, walletAddress := wallet,
    amount := some fresh, amountWei := some (ethToWei fresh.1 fresh.2),
    timestamp := now, verified := false }

/-- Model of handleModalSubmit in monad-bot.js. The random generator
output and Date.now() are passed in as freshAmount, freshId and now.
An existing unverified entry is resumed: its amount is reused when truthy
(regenerated otherwise, the untaken path for records this code creates),
the claimed wallet is overwritten, and amountWei is left untouched when
the amount was reused; with no entry a fresh record is created. -/
def handleModalSubmit (codes : Codes) (userId username : String) (wallet : JsStr)
    (freshAmount : Nat × Int) (freshId : String) (now : Nat) : ModalOutcome × Codes :=
  if !isValidEthereumAddress wallet then (.invalidWallet, codes)
  else
    match findUserCode codes userId with
    | some (id, c) =>
      if c.verified then (.alreadyVerified, codes)
      else
        let amt :=
          match c.amount with
          | some a => if a.1 ≠ 0 then a else freshAmount
          | none => freshAmount
        let c2 :=
          if truthyAmount c.amount then { c with walletAddress := wallet }
          else
            { c with
              walletAddress := wallet
              amount := some amt
              amountWei := some (ethToWei amt.1 amt.2) }
        (.challengeIssued amt, setCode codes id c2)
    | none =>
      (.challengeIssued freshAmount,
       setCode codes freshId (freshChallengeCode userId username wallet freshAmount now))

theorem findUserCode_append (codes : Codes) (userId : String) (k : String) (c : VCode)
    (h : ∀ e ∈ codes, e.2.userId ≠ userId) (hc : c.userId = userId) :
    findUserCode (codes ++ [(k, c)]) userId = some (k, c) := by
  unfold findUserCode
  rw [List.find?_append]
  have h1 : (codes.find? fun e => e.2.userId == userId) = none := by
    rw [List.find?_eq_none]
    intro x hx
    simp [h x hx]
  rw [h1]
  simp [hc]

theorem setCode_append_new (codes : Codes) (k : String) (v : VCode)
    (h : ∀ e ∈ codes, e.1 ≠ k) :
    setCode codes k v = codes ++ [(k, v)] := by
  unfold setCode
  have h1 : (codes.find? fun e => e.1 == k) = none := by
    rw [List.find?_eq_none]
    intro x hx
    simp [h x hx]
  rw [h1]
  simp

theorem mapNoKey (codes : Codes) (k : String) (w : VCode) (h : ∀ e ∈ codes, e.1 ≠ k) :
    (codes.map fun e => if e.1 == k then (k, w) else e) = codes := by
  induction codes with
  | nil => rfl
  | cons x xs ih =>
    simp only [List.map_cons]
    rw [ih (fun e he => h e (List.mem_cons_of_mem x he))]
    have hx : x.1 ≠ k := h x (List.mem_cons_self x xs)
    simp [hx]

theorem setCode_replace_last (codes : Codes) (k : String) (v w : VCode)
    (h : ∀ e ∈ codes, e.1 ≠ k) :
    setCode (codes ++ [(k, v)]) k w = codes ++ [(k, w)] := by
  unfold setCode
  have h1 : ((codes ++ [(k, v)]).find? fun e => e.1 == k) = some (k, v) := by
    rw [List.find?_append]
    have h2 : (codes.find? fun e => e.1 == k) = none := by
      rw [List.find?_eq_none]
      intro x hx
      simp [h x hx]
    rw [h2]
    simp
  rw [h1]
  simp only [Option.isSome_some, if_true, List.map_append]
  rw [mapNoKey codes k w h]
  simp

theorem handleModalSubmit_create (codes : Codes) (userId username : String) (wallet : JsStr)
    (fresh : Nat × Int) (freshId : String) (now : Nat)
    (hw : isValidEthereumAddress wallet = true)
    (huser : ∀ e ∈ codes, e.2.userId ≠ userId)
    (hkey : ∀ e ∈ codes, e.1 ≠ freshId) :
    handleModalSubmit codes userId username wallet fresh freshId now =
      (.challengeIssued fresh,
       codes ++ [(freshId, freshChallengeCode userId username wallet fresh now)]) := by
  unfold handleModalSubmit
  have hfind : findUserCode codes userId = none := by
    unfold findUserCode
    rw [List.find?_eq_none]
    intro x hx
    simp [huser x hx]
  rw [hw]
  simp only [Bool.not_true, Bool.false_eq_true, if_false, hfind]
  rw [setCode_append_new codes freshId _ hkey]

theorem handleModalSubmit_resume (codes : Codes) (userId username : String) (wallet : JsStr)
    (fresh2 : Nat × Int) (freshId2 : String) (now : Nat) (id : String) (c : VCode)
    (a : Nat × Int)
    (hw : isValidEthereumAddress wallet = true)
    (huser : ∀ e ∈ codes, e.2.userId ≠ userId)
    (hkey : ∀ e ∈ codes, e.1 ≠ id)
    (hcu : c.userId = userId)
    (hcv : c.verified = false)
    (ha : c.amount = some a)
    (ha0 : a.1 ≠ 0) :
    handleModalSubmit (codes ++ [(id, c)]) userId username wallet fresh2 freshId2 now =
      (.challengeIssued a, codes ++ [(id, { c with walletAddress := wallet })]) := by
  unfold handleModalSubmit
  rw [hw]
  simp only [Bool.not_true, Bool.false_eq_true, if_false,
    findUserCode_append codes userId id c huser hcu]
  simp only [hcv, Bool.false_eq_true, if_false, ha, truthyAmount, ha0, ne_eq,
    not_false_eq_true, if_true]
  rw [setCode_replace_last codes id c _ hkey]
  simp

/-- Claim C5: with no record stored for the user, submitting the wallet
modal creates an unverified record carrying the fresh amount and its
base-unit string; submitting it again (any new valid wallet, any new
generator output) returns the identical amount, leaves the stored amount
and base-unit string untouched, and only overwrites the claimed wallet.
A fresh amount is used only on the creating call. -/
theorem create_or_resume_idempotent (codes : Codes) (userId username1 username2 : String)
    (wallet1 wallet2 : JsStr) (fresh1 fresh2 : Nat × Int) (freshId freshId2 : String)
    (now1 now2 : Nat)
    (hw1 : isValidEthereumAddress wallet1 = true)
    (hw2 : isValidEthereumAddress wallet2 = true)
    (hf1 : fresh1.1 ≠ 0)
    (huser : ∀ e ∈ codes, e.2.userId ≠ userId)
    (hkey : ∀ e ∈ codes, e.1 ≠ freshId) :
    handleModalSubmit codes userId username1 wallet1 fresh1 freshId now1 =
      (.challengeIssued fresh1,
       codes ++ [(freshId, freshChallengeCode userId username1 wallet1 fresh1 now1)])
    ∧ handleModalSubmit
        (codes ++ [(freshId, freshChallengeCode userId username1 wallet1 fresh1 now1)])
        userId username2 wallet2 fresh2 freshId2 now2 =
      (.challengeIssued fresh1,
       codes ++ [(freshId,
         { freshChallengeCode userId username1 wallet1 fresh1 now1 with
           walletAddress := wallet2 })]) := by
  constructor
  · exact handleModalSubmit_create codes userId username1 wallet1 fresh1 freshId now1
      hw1 huser hkey
  · exact handleModalSubmit_resume codes userId username2 wallet2 fresh2 freshId2 now2
      freshId (freshChallengeCode userId username1 wallet1 fresh1 now1) fresh1
      hw2 huser hkey rfl rfl rfl hf1

/-- A valid wallet input for the witnesses: 0x followed by 40 a characters. -/
def witnessWalletA : JsStr := [48, 120] ++ List.replicate 40 97

/-- A second valid wallet input: 0x followed by 40 b characters. -/
def witnessWalletB : JsStr := [48, 120] ++ List.replicate 40 98

/-- Witness for C5: concrete double submission with an empty store; the
second call returns the first amount 1.0 with the stored Wei string
intact and the wallet replaced, ignoring the second generator output. -/
theorem create_or_resume_idempotent_witness :
    handleModalSubmit [] "u1" "alice" witnessWalletA (1, 0) "100" 0 =
      (.challengeIssued (1, 0),
       [("100", freshChallengeCode "u1" "alice" witnessWalletA (1, 0) 0)])
    ∧ handleModalSubmit [("100", freshChallengeCode "u1" "alice" witnessWalletA (1, 0) 0)]
        "u1" "alice" witnessWalletB (7, -2) "200" 5 =
      (.challengeIssued (1, 0),
       [("100",
         { freshChallengeCode "u1" "alice" witnessWalletA (1, 0) 0 with
           walletAddress := witnessWalletB })]) := by
  have h := create_or_resume_idempotent [] "u1" "alice" "alice" witnessWalletA witnessWalletB
    (1, 0) (7, -2) "100" "200" 0 5 (by decide) (by decide) (by decide)
    (by simp) (by simp)
  exact ⟨h.1, h.2⟩

/-- Counterexample to claim C6 as stated: the binary64 value of the
challenge amount 1.01e-8 (the double 6105075389053877 * 2^-79, which
jsDouble computes from the decimal 101 / 10^10) has
floor(d * 10^18) = 10099999999, but ethToWei returns the string
10100000000, because the multiplication rounds the product up to an exact
integer double before Math.floor applies. -/
theorem ethToWei_floor_counterexample :
    jsDouble 101 (10 ^ 10) = (6105075389053877, -79)
    ∧ ethToWei 6105075389053877 (-79) = natToJsStr 10100000000
    ∧ dyFloor (6105075389053877 * 10 ^ 18) (-79) = 10099999999
    ∧ natToJsStr 10100000000 ≠ natToJsStr 10099999999 := by
  refine ⟨by decide, by decide, by decide, by decide⟩


theorem add_div_le (a b c : Nat) (hc : 0 < c) : (a + b) / c ≤ a / c + b / c + 1 := by
  have h1 := Nat.div_add_mod a c
  have h2 := Nat.div_add_mod b c
  have h3 : a % c < c := Nat.mod_lt _ hc
  have h4 : b % c < c := Nat.mod_lt _ hc
  have key : a + b < (a / c + b / c + 2) * c := by
    have hexp : (a / c + b / c + 2) * c = c * (a / c) + c * (b / c) + 2 * c := by ring
    omega
  have := (Nat.div_lt_iff_lt_mul hc).mpr key
  omega

theorem shiftDown53_bounds : ∀ fuel n : Nat, n ≤ fuel → 2 ^ 53 ≤ n →
    n / 2 ^ shiftDown53 fuel n < 2 ^ 53 ∧ 2 ^ 52 ≤ n / 2 ^ shiftDown53 fuel n := by
  intro fuel
  induction fuel with
  | zero =>
    intro n hn h53
    exfalso
    have hpos : 0 < 2 ^ 53 := by positivity
    omega
  | succ f ih =>
    intro n hn h53
    have hnot : ¬ n < 2 ^ 53 := by omega
    simp only [shiftDown53, hnot, if_false]
    by_cases h2 : 2 ^ 53 ≤ n / 2
    · have hrec := ih (n / 2) (by omega) h2
      have heq : n / 2 ^ (shiftDown53 f (n / 2) + 1) = n / 2 / 2 ^ shiftDown53 f (n / 2) := by
        rw [Nat.div_div_eq_div_mul, Nat.mul_comm, ← pow_succ]
      rw [heq]
      exact hrec
    · have hz : shiftDown53 f (n / 2) = 0 := by
        cases f with
        | zero => rfl
        | succ f2 =>
          have hlt : n / 2 < 9007199254740992 := by omega
          simp [shiftDown53, hlt]
      rw [hz, pow_one]
      constructor
      · omega
      · have hexp : (2 : Nat) ^ 53 = 2 ^ 52 * 2 := by
          rw [← pow_succ]
        have hpos : 0 < 2 ^ 52 := by positivity
        omega

theorem roundFrac_err (N D : Nat) (hD : 0 < D) :
    roundFrac N D * D ≤ N + D / 2 ∧ N ≤ roundFrac N D * D + D / 2 := by
  have hmod := Nat.div_add_mod N D
  have hlt : N % D < D := Nat.mod_lt _ hD
  have hcomm : N / D * D = D * (N / D) := Nat.mul_comm _ _
  have hexp : (N / D + 1) * D = N / D * D + D := by ring
  unfold roundFrac
  by_cases h1 : 2 * (N % D) < D
  · simp only [h1, if_true]
    omega
  · by_cases h2 : D < 2 * (N % D)
    · simp only [h1, if_false, h2, if_true]
      omega
    · by_cases h3 : (N / D) % 2 = 0
      · simp only [h1, if_false, h2, if_false, h3, if_true]
        omega
      · simp only [h1, if_false, h2, if_false, h3, if_false]
        omega

theorem fl53_err (n : Nat) : fl53 n ≤ n + n / 2 ^ 53 ∧ n ≤ fl53 n + n / 2 ^ 53 := by
  by_cases h : n < 2 ^ 53
  · rw [fl53_eq_self h]
    omega
  · have hunf : fl53 n = roundFrac n (2 ^ shiftDown53 n n) * 2 ^ shiftDown53 n n := by
      unfold fl53
      rw [if_neg h]
    rw [hunf]
    have hb := shiftDown53_bounds n n (Nat.le_refl n) (by omega)
    have hDpos : 0 < 2 ^ shiftDown53 n n := by positivity
    have hre := roundFrac_err n (2 ^ shiftDown53 n n) hDpos
    have hlow : 2 ^ 52 * 2 ^ shiftDown53 n n ≤ n :=
      (Nat.le_div_iff_mul_le hDpos).mp hb.2
    have hhalf : 2 ^ shiftDown53 n n / 2 ≤ n / 2 ^ 53 := by
      rcases Nat.eq_zero_or_pos (shiftDown53 n n) with hk0 | hkpos
      · rw [hk0]
        simp
      · have hdiv : 2 ^ shiftDown53 n n / 2 = 2 ^ (shiftDown53 n n - 1) := by
          cases hk : shiftDown53 n n with
          | zero => omega
          | succ k2 =>
            rw [pow_succ]
            simp [Nat.mul_div_cancel _ (by norm_num : (0:Nat) < 2)]
        rw [hdiv, Nat.le_div_iff_mul_le (by positivity : (0:Nat) < 2 ^ 53)]
        have hcomb : 2 ^ (shiftDown53 n n - 1) * 2 ^ 53 = 2 ^ 52 * 2 ^ shiftDown53 n n := by
          rw [← pow_add, ← pow_add]
          congr 1
          omega
        rw [hcomb]
        exact hlow
    omega

/-- The keystone numerical fact behind the amended C6: whenever the exact
product d * 10^18 lies below 2^53 base units, the integer whose decimal
string ethToWei returns differs from floor(d * 10^18) by at most one. -/
theorem dyFloor_fl53_within_one (s : Nat) (e : Int) (he : e < 0)
    (hmag : s * 10 ^ 18 / 2 ^ 53 < 2 ^ (-e).toNat) :
    dyFloor (fl53 (s * 10 ^ 18)) e ≤ dyFloor (s * 10 ^ 18) e + 1
    ∧ dyFloor (s * 10 ^ 18) e ≤ dyFloor (fl53 (s * 10 ^ 18)) e + 1 := by
  have hne : ¬ (0 : Int) ≤ e := by omega
  have hm : 0 < 2 ^ (-e).toNat := by positivity
  have hfe := fl53_err (s * 10 ^ 18)
  unfold dyFloor
  rw [if_neg hne, if_neg hne]
  constructor
  · calc fl53 (s * 10 ^ 18) / 2 ^ (-e).toNat
        ≤ (s * 10 ^ 18 + s * 10 ^ 18 / 2 ^ 53) / 2 ^ (-e).toNat :=
          Nat.div_le_div_right hfe.1
      _ ≤ s * 10 ^ 18 / 2 ^ (-e).toNat + s * 10 ^ 18 / 2 ^ 53 / 2 ^ (-e).toNat + 1 :=
          add_div_le _ _ _ hm
      _ = s * 10 ^ 18 / 2 ^ (-e).toNat + 1 := by
          rw [Nat.div_eq_of_lt hmag]
  · calc s * 10 ^ 18 / 2 ^ (-e).toNat
        ≤ (fl53 (s * 10 ^ 18) + s * 10 ^ 18 / 2 ^ 53) / 2 ^ (-e).toNat :=
          Nat.div_le_div_right hfe.2
      _ ≤ fl53 (s * 10 ^ 18) / 2 ^ (-e).toNat + s * 10 ^ 18 / 2 ^ 53 / 2 ^ (-e).toNat + 1 :=
          add_div_le _ _ _ hm
      _ = fl53 (s * 10 ^ 18) / 2 ^ (-e).toNat + 1 := by
          rw [Nat.div_eq_of_lt hmag]

set_option maxHeartbeats 1000000 in
/-- Claim C6 (amended): ethToWei(d) returns the decimal string of
floor(fl64(d * 10^18)), the floor of the binary64-rounded product; for
every amount whose exact product d * 10^18 lies below 2^53 base units
(which covers every generated challenge amount by a wide margin), that
integer is within one base unit of floor(d * 10^18), and it can exceed it
by exactly one (the counterexample at d = fl64(1.01e-8)). The function is
a pure function of its argument (deterministic), and the orchestrator
computes it exactly once per challenge, at record creation, and caches
it: resuming leaves the stored string untouched. -/
theorem ethToWei_amended :
    (∀ (s : Nat) (e : Int), e < 0 → s * 10 ^ 18 / 2 ^ 53 < 2 ^ (-e).toNat →
      ethToWei s e = natToJsStr (dyFloor (fl53 (s * 10 ^ 18)) e)
      ∧ dyFloor (fl53 (s * 10 ^ 18)) e ≤ dyFloor (s * 10 ^ 18) e + 1
      ∧ dyFloor (s * 10 ^ 18) e ≤ dyFloor (fl53 (s * 10 ^ 18)) e + 1)
    ∧ (∀ (codes : Codes) (userId username : String) (wallet : JsStr) (fresh : Nat × Int)
        (freshId : String) (now : Nat),
        isValidEthereumAddress wallet = true →
        (∀ e ∈ codes, e.2.userId ≠ userId) →
        (∀ e ∈ codes, e.1 ≠ freshId) →
        (handleModalSubmit codes userId username wallet fresh freshId now).2 =
          codes ++ [(freshId, freshChallengeCode userId username wallet fresh now)])
    ∧ (∀ (codes : Codes) (userId username : String) (wallet : JsStr) (fresh2 : Nat × Int)
        (freshId2 id : String) (now : Nat) (c : VCode) (a : Nat × Int),
        isValidEthereumAddress wallet = true →
        (∀ e ∈ codes, e.2.userId ≠ userId) →
        (∀ e ∈ codes, e.1 ≠ id) →
        c.userId = userId → c.verified = false → c.amount = some a → a.1 ≠ 0 →
        (handleModalSubmit (codes ++ [(id, c)]) userId username wallet fresh2 freshId2
            now).2 =
          codes ++ [(id, { c with walletAddress := wallet })]) := by
  refine ⟨?_, ?_, ?_⟩
  · intro s e he hmag
    exact ⟨rfl, (dyFloor_fl53_within_one s e he hmag).1,
      (dyFloor_fl53_within_one s e he hmag).2⟩
  · intro codes userId username wallet fresh freshId now hw huser hkey
    rw [handleModalSubmit_create codes userId username wallet fresh freshId now hw huser hkey]
  · intro codes userId username wallet fresh2 freshId2 id now c a hw huser hkey hcu hcv ha ha0
    rw [handleModalSubmit_resume codes userId username wallet fresh2 freshId2 now id c a
      hw huser hkey hcu hcv ha ha0]

/-- Witness for the amended C6: the within-one-base-unit statement applied
at the double for 1.01e-8, and the create and resume cache statements
applied at the concrete C5 scenario. -/
theorem ethToWei_amended_witness :
    (ethToWei 6105075389053877 (-79) =
        natToJsStr (dyFloor (fl53 (6105075389053877 * 10 ^ 18)) (-79))
      ∧ dyFloor (fl53 (6105075389053877 * 10 ^ 18)) (-79) ≤
        dyFloor (6105075389053877 * 10 ^ 18) (-79) + 1
      ∧ dyFloor (6105075389053877 * 10 ^ 18) (-79) ≤
        dyFloor (fl53 (6105075389053877 * 10 ^ 18)) (-79) + 1)
    ∧ (handleModalSubmit [] "u1" "alice" witnessWalletA (1, 0) "100" 0).2 =
      [("100", freshChallengeCode "u1" "alice" witnessWalletA (1, 0) 0)]
    ∧ (handleModalSubmit [("100", freshChallengeCode "u1" "alice" witnessWalletA (1, 0) 0)]
        "u1" "bob" witnessWalletB (7, -2) "200" 5).2 =
      [("100",
        { freshChallengeCode "u1" "alice" witnessWalletA (1, 0) 0 with
          walletAddress := witnessWalletB })] :=
  ⟨ethToWei_amended.1 6105075389053877 (-79) (by decide) (by decide),
   ethToWei_amended.2.1 [] "u1" "alice" witnessWalletA (1, 0) "100" 0 (by decide)
     (by simp) (by simp),
   ethToWei_amended.2.2 [] "u1" "bob" witnessWalletB (7, -2) "200" "100" 5
     (freshChallengeCode "u1" "alice" witnessWalletA (1, 0) 0) (1, 0) (by decide)
     (by simp) (by simp) rfl rfl rfl (by decide)⟩

end MonadBot
